import Mathlib

/-!
A verification development for the hackrx-chatbot RAG pipeline.

The Python sources under `app/` are shallowly embedded:

* `app/rag_pipeline.py`  — `RAGPipeline.process_document_and_questions` and
  `RAGPipeline._process_questions` become `processDocumentAndQuestions` and
  `processQuestions` below, parameterised over an environment `PipelineEnv`
  of collaborators (document processor, embedder, vector store, query
  processor).  Python exceptions are modelled with `Except String`.
* `app/vector_store.py` — `VectorStore` becomes the `VStore` state type with
  `storeDocuments`, `similaritySearch`, `deleteBySource`, `getIndexStats`.
  FAISS `IndexFlatL2` is embedded as the list of stored vectors (exact
  rational arithmetic); its `search` is a brute-force scan returning the
  `top_k` smallest squared-L2 distances in ascending order.  Document ids,
  `str(i)` in Python, are modelled by the integer `i` itself (the decimal
  rendering is a bijection used consistently on both the write and the read
  side of the side table).
* `app/text_chunker.py` — `TextChunker.chunk_document` becomes
  `chunkDocument`; the third-party `RecursiveCharacterTextSplitter` it
  delegates to is not part of the repository and is modelled from the spec.
-/

deriving instance DecidableEq for Except

namespace HackRx

/-- A Python metadata value: the dictionaries built by the store hold strings
and integers (after `None` values are removed). -/
inductive MVal where
  | str (s : String)
  | int (n : Int)
deriving DecidableEq, Repr

/-- A Python dict with `String` keys, as an association list in insertion
order (first binding wins on lookup, as keys are kept unique). -/
abbrev Dict := List (String × MVal)

/-- `d.get(k, default)` on a Python dict. -/
def dictGetD (d : Dict) (k : String) (v : MVal) : MVal :=
  (d.lookup k).getD v

/-! ## Pipeline model (`app/rag_pipeline.py`) -/

/-- A retrieved chunk as handed to the pipeline by
`VectorStore.similarity_search`: the pipeline reads only its `score` and
passes the rest through to the query processor. -/
structure ScoredChunk where
  id : Nat
  score : ℚ
  content : String
  metadata : Dict
deriving DecidableEq, Repr

/-- The dictionary returned by `QueryProcessor.process_query`
(`app/query_processor.py` lines 65-71): the pipeline consumes `answer` and
logs the diagnostics. -/
structure GenResult where
  answer : String
  confidence_score : ℚ
  reasoning : String
  chunks_used : Nat
  token_usage : Nat
deriving DecidableEq, Repr

/-- Relevant configuration fields of `app/config.py` `Settings`. -/
structure PipeSettings where
  similarity_threshold : ℚ
  top_k_results : Nat
  max_tokens : Nat

/-- The collaborators `RAGPipeline` calls, as oracles.  Each is a function of
its visible arguments; a Python exception is `Except.error` with the
exception's message. -/
structure PipelineEnv where
  initOp : Except String Unit
  processDocumentFromUrl : String → Except String (String × Dict)
  chunkDocumentOf : String × Dict → Except String (List (String × Dict))
  generateEmbeddings : List String → Except String (List (List ℚ))
  storeDocs : List (String × Dict) → List (List ℚ) → Except String (List Nat)
  similaritySearchOf : List ℚ → Nat → Option (List (String × String)) →
      Except String (List ScoredChunk)
  processQuery : String → List ScoredChunk → Nat → Except String GenResult

/-- `{'source': source_filter} if source_filter else None`
(`rag_pipeline.py` line 95): Python truthiness makes both `None` and the
empty string produce no filter. -/
def mkFilterDict (sourceFilter : Option String) :
    Option (List (String × String)) :=
  match sourceFilter with
  | none => none
  | some s => if s = "" then none else some [("source", s)]

/-- The body of the `try` block of one iteration of
`RAGPipeline._process_questions` (`rag_pipeline.py` lines 90-119):
embed the question, search, filter by the similarity threshold, and either
answer with the fixed not-found string or call the query processor. -/
def questionSteps (env : PipelineEnv) (cfg : PipeSettings)
    (sourceFilter : Option String) (question : String) :
    Except String String :=
  match env.generateEmbeddings [question] with
  | Except.error e => Except.error e
  | Except.ok embs =>
    -- `[0]` on the returned array raises IndexError when it is empty
    match embs.head? with
    | none => Except.error "list index out of range"
    | some queryEmbedding =>
      match env.similaritySearchOf queryEmbedding cfg.top_k_results
          (mkFilterDict sourceFilter) with
      | Except.error e => Except.error e
      | Except.ok relevantChunks =>
        let relevantChunks := relevantChunks.filter
          (fun chunk => cfg.similarity_threshold ≤ chunk.score)
        if relevantChunks.isEmpty then
          Except.ok "I couldn't find relevant information in the document to answer this question."
        else
          match env.processQuery question relevantChunks cfg.max_tokens with
          | Except.error e => Except.error e
          | Except.ok result => Except.ok result.answer

/-- One iteration of the loop of `RAGPipeline._process_questions`: any
exception raised inside the `try` block becomes the error-message answer of
`rag_pipeline.py` line 127. -/
def processOneQuestion (env : PipelineEnv) (cfg : PipeSettings)
    (sourceFilter : Option String) (question : String) : String :=
  match questionSteps env cfg sourceFilter question with
  | Except.ok a => a
  | Except.error e => "Error processing this question: " ++ e

/-- `RAGPipeline._process_questions` (`rag_pipeline.py` lines 83-129): the
loop appends exactly one answer per question and carries no state between
iterations, so it is a map of `processOneQuestion` over the questions. -/
def processQuestions (env : PipelineEnv) (cfg : PipeSettings)
    (sourceFilter : Option String) (questions : List String) : List String :=
  questions.map (processOneQuestion env cfg sourceFilter)

/-- The ingestion phase of `RAGPipeline.process_document_and_questions`
(`rag_pipeline.py` lines 52-69): initialize, fetch and extract, chunk,
embed, store. -/
def ingestionSteps (env : PipelineEnv) (documentUrl : String) :
    Except String Unit := do
  let _ ← env.initOp
  let documentData ← env.processDocumentFromUrl documentUrl
  let chunks ← env.chunkDocumentOf documentData
  let chunkTexts := chunks.map (fun doc => doc.1)
  let embeddings ← env.generateEmbeddings chunkTexts
  let _ ← env.storeDocs chunks embeddings
  Except.ok ()

/-- `RAGPipeline.process_document_and_questions` (`rag_pipeline.py` lines
40-81): on any ingestion failure the `except` block returns one uniform
error answer per question; otherwise the per-question loop runs. -/
def processDocumentAndQuestions (env : PipelineEnv) (cfg : PipeSettings)
    (documentUrl : String) (questions : List String) : List String :=
  match ingestionSteps env documentUrl with
  | Except.ok _ => processQuestions env cfg (some documentUrl) questions
  | Except.error e =>
      questions.map (fun _ => "Error processing question: " ++ e)

/-! ## Vector store model (`app/vector_store.py`) -/

/-- A langchain `Document` as the vector store consumes it: `page_content`
plus a metadata dict. -/
structure Doc where
  page_content : String
  metadata : Dict
deriving DecidableEq, Repr

/-- The `VectorStore` state (`vector_store.py` lines 18-24).  The FAISS
`IndexFlatL2` is the list of stored vectors; `index = none` is the
`self.index = None` of `__init__` before `initialize` runs.  Keys of
`document_store` are `str(i)` in Python; the model uses the integer `i`
itself, the decimal rendering being a bijection applied consistently by
both `store_documents` and `similarity_search`. -/
structure VStore where
  index_path : String
  document_store_path : String
  dimension : Nat
  index : Option (List (List ℚ))
  document_store : List (Nat × Dict)
deriving DecidableEq, Repr

/-- `VectorStore.__init__` (`vector_store.py` lines 18-24). -/
def mkVStore (index_path document_store_path : String) (dimension : Nat) :
    VStore :=
  { index_path := index_path, document_store_path := document_store_path,
    dimension := dimension, index := none, document_store := [] }

/-- `VectorStore.initialize` (`vector_store.py` lines 26-57) on a fresh
filesystem (no persisted index or document store): creates an empty
`IndexFlatL2` and an empty document store.  Loading persisted state is disk
I/O and is not modelled. -/
def vsInit (st : VStore) : VStore :=
  { st with index := some [], document_store := [] }

/-- Squared L2 distance, the metric of FAISS `IndexFlatL2` (the `D` values
its `search` returns). -/
def sqDist (u v : List ℚ) : ℚ :=
  ((u.zip v).map (fun p => (p.1 - p.2) * (p.1 - p.2))).sum

/-- Order in which FAISS returns search hits: ascending distance, ties by
insertion index. -/
def faissLe (a b : ℚ × Nat) : Prop :=
  a.1 < b.1 ∨ (a.1 = b.1 ∧ a.2 ≤ b.2)

instance : DecidableRel faissLe := fun a b =>
  inferInstanceAs (Decidable (a.1 < b.1 ∨ (a.1 = b.1 ∧ a.2 ≤ b.2)))

/-- `index.search(q, top_k)` on `IndexFlatL2`: the `top_k` smallest
(squared-L2 distance, index) pairs over all stored vectors, ascending.
When `top_k` exceeds the number of stored vectors FAISS pads with `-1`
labels, which the caller skips; the model simply returns fewer pairs. -/
def faissSearch (vecs : List (List ℚ)) (q : List ℚ) (topK : Nat) :
    List (ℚ × Nat) :=
  (List.insertionSort faissLe
    (vecs.enum.map (fun p => (sqDist q p.2, p.1)))).take topK

/-- `VectorStore._matches_filter` (`vector_store.py` lines 184-189). -/
def matchesFilter (doc_data : Dict) (filter_dict : Dict) : Bool :=
  filter_dict.all (fun kv =>
    match doc_data.lookup kv.1 with
    | some w => decide (w = kv.2)
    | none => false)

/-- One search hit as assembled by `similarity_search` (`vector_store.py`
lines 170-175).  The Python dict holds `score = exp(-distance)`; the model
carries the exact distance and derives the score (`SearchResult.score`). -/
structure SearchResult where
  id : Nat
  distance : ℚ
  content : MVal
  metadata : Dict
deriving DecidableEq, Repr

/-- `float(np.exp(-distance))` (`vector_store.py` line 161), over ℝ. -/
noncomputable def scoreOfDistance (d : ℚ) : ℝ :=
  Real.exp (-(d : ℝ))

/-- The `score` field of a search hit. -/
noncomputable def SearchResult.score (r : SearchResult) : ℝ :=
  scoreOfDistance r.distance

/-- `VectorStore.similarity_search` (`vector_store.py` lines 128-182).
A `None` index (`initialize` never called) raises an `AttributeError` on
`self.index.search`.  An empty `filter_dict` is falsy in Python, so it
applies no filtering, exactly like `None`. -/
def similaritySearch (st : VStore) (query : List ℚ) (topK : Nat)
    (filterDict : Option Dict) : Except String (List SearchResult) :=
  match st.index with
  | none =>
      Except.error "AttributeError: NoneType object has no attribute search"
  | some vecs =>
      Except.ok ((faissSearch vecs query topK).filterMap (fun p =>
        let doc_data := (st.document_store.lookup p.2).getD []
        let keep : Bool := match filterDict with
          | none => true
          | some f => if f.isEmpty then true else matchesFilter doc_data f
        if keep then
          some { id := p.2, distance := p.1,
                 content := dictGetD doc_data "content" (MVal.str ""),
                 metadata := doc_data }
        else none))

/-- The metadata dict `store_documents` builds for document number `i` of a
batch (`vector_store.py` lines 88-98), `None` values removed (only
`page_number` can be `None`). -/
def entryMetadata (i : Nat) (doc : Doc) : Dict :=
  [("content", MVal.str doc.page_content),
   ("source", dictGetD doc.metadata "source" (MVal.str "")),
   ("type", dictGetD doc.metadata "type" (MVal.str "")),
   ("chunk_id", dictGetD doc.metadata "chunk_id" (MVal.int i))]
  ++ (match doc.metadata.lookup "page_number" with
      | some v => [("page_number", v)]
      | none => [])
  ++ [("token_count", dictGetD doc.metadata "token_count" (MVal.int 0))]

/-- Python dict assignment `d[k] = v`: overwrite in place when the key
exists, else append. -/
def dictInsertNat (d : List (Nat × Dict)) (k : Nat) (v : Dict) :
    List (Nat × Dict) :=
  if d.any (fun p => p.1 = k) then
    d.map (fun p => if p.1 = k then (k, v) else p)
  else d ++ [(k, v)]

/-- `VectorStore.store_documents` (`vector_store.py` lines 59-120): append
the embeddings to the index, then assign ids `start_id + i` with
`start_id = ntotal - len(embeddings)` and store each document's metadata.
On a `None` index, `self.index.add` raises an `AttributeError`.  Disk
persistence is I/O and is not modelled. -/
def storeDocuments (st : VStore) (documents : List Doc)
    (embeddings : List (List ℚ)) : Except String (VStore × List Nat) :=
  match st.index with
  | none =>
      Except.error "AttributeError: NoneType object has no attribute add"
  | some vecs =>
      let newIndex := vecs ++ embeddings
      let startId := newIndex.length - embeddings.length
      let withIds := documents.enum.map
        (fun p => (startId + p.1, entryMetadata p.1 p.2))
      Except.ok
        ({ st with index := some newIndex,
                   document_store := withIds.foldl
                     (fun d p => dictInsertNat d p.1 p.2) st.document_store },
         withIds.map (fun p => p.1))

/-- `VectorStore.delete_by_source` (`vector_store.py` lines 191-228):
drop every document-store entry whose `source` metadata equals the
argument; the index itself is untouched.  The body cannot raise, also on an
uninitialized store (it only walks the dict), and the early `return` when
nothing matches yields the same state. -/
def deleteBySource (st : VStore) (source : String) : VStore :=
  { st with document_store := (st.document_store.filter
      (fun p => decide (p.2.lookup "source" ≠ some (MVal.str source)))) }

/-- The dict returned by `VectorStore.get_index_stats` (`vector_store.py`
lines 230-250). -/
structure IndexStats where
  dimension : Nat
  total_vectors : Nat
  total_documents : Nat
  index_path : String
  document_store_path : String
  sources : List (MVal × Nat)
deriving DecidableEq, Repr

/-- One step of `_get_unique_sources`: count an occurrence of `s`. -/
def bumpSource (acc : List (MVal × Nat)) (s : MVal) : List (MVal × Nat) :=
  if acc.any (fun p => p.1 = s) then
    acc.map (fun p => if p.1 = s then (p.1, p.2 + 1) else p)
  else acc ++ [(s, 1)]

/-- `VectorStore._get_unique_sources` (`vector_store.py` lines 252-261). -/
def getUniqueSources (st : VStore) : List (MVal × Nat) :=
  st.document_store.foldl
    (fun acc p => bumpSource acc (dictGetD p.2 "source" (MVal.str "unknown")))
    []

/-- `VectorStore.get_index_stats` (`vector_store.py` lines 230-250): always
returns normally; `if self.index:` makes `total_vectors` 0 on an
uninitialized store. -/
def getIndexStats (st : VStore) : IndexStats :=
  { dimension := st.dimension,
    total_vectors := (st.index.getD []).length,
    total_documents := st.document_store.length,
    index_path := st.index_path,
    document_store_path := st.document_store_path,
    sources := getUniqueSources st }

/-! ## Chunker model (`app/text_chunker.py`) -/

/-- Modelled from the spec: `langchain`'s `RecursiveCharacterTextSplitter`,
which `TextChunker.chunk_document` delegates to, is third-party code not in
this repository.  Per spec §4.1 the splitter cuts the content with a
hierarchical separator preference down to the character boundary so every
segment is at most `chunkSize` characters and consecutive segments overlap
by `chunkOverlap`; the model realises the lowest (character-boundary) level:
windows of `chunkSize` characters advancing by `chunkSize - chunkOverlap`.
The spec requires `chunkOverlap < chunkSize` (anything else is a
configuration error), so the model forces a minimum advance of one
character to keep the recursion well founded. -/
def splitPieces (size step : Nat) (l : List Char) : List (List Char) :=
  if l = [] then []
  else if l.length ≤ size then [l]
  else l.take size :: splitPieces size step (l.drop (max step 1))
termination_by l.length
decreasing_by
  simp only [List.length_drop]
  have h2 : 1 ≤ max step 1 := le_max_right step 1
  omega

/-- Modelled from the spec: `text_splitter.split_text` at the string level
(see `splitPieces`). -/
def splitText (chunk_size chunk_overlap : Nat) (content : String) :
    List String :=
  (splitPieces chunk_size (chunk_size - chunk_overlap) content.toList).map
    (fun l => String.mk l)

/-- Python dict assignment `d[k] = v` for string keys (`metadata.update`
updates in place or appends). -/
def dictInsertStr (d : Dict) (k : String) (v : MVal) : Dict :=
  if d.any (fun p => p.1 = k) then
    d.map (fun p => if p.1 = k then (k, v) else p)
  else d ++ [(k, v)]

/-- The `document_data` argument of `chunk_document`: a dict with `content`
and `metadata` entries. -/
structure DocumentData where
  content : String
  metadata : Dict
deriving Repr

/-- `TextChunker.chunk_document` (`text_chunker.py` lines 33-74): split the
content, then wrap each chunk in a `Document` whose metadata is a copy of
the document metadata updated with `chunk_id`, `chunk_size`,
`total_chunks`, and — when a tokenizer is available — `token_count`.
The tokenizer (`tiktoken`, external) is a parameter; `none` models the
`self.tokenizer = None` fallback of `__init__`. -/
def chunkDocument (chunk_size chunk_overlap : Nat)
    (tokenizer : Option (String → Nat)) (document_data : DocumentData) :
    List Doc :=
  let chunks := splitText chunk_size chunk_overlap document_data.content
  chunks.enum.map (fun p =>
    let m := dictInsertStr document_data.metadata "chunk_id" (MVal.int p.1)
    let m := dictInsertStr m "chunk_size" (MVal.int p.2.length)
    let m := dictInsertStr m "total_chunks" (MVal.int chunks.length)
    let m := match tokenizer with
      | some tok => dictInsertStr m "token_count" (MVal.int (tok p.2))
      | none => m
    { page_content := p.2, metadata := m })

/-! ## Concrete fixtures used by witnesses -/

/-- The default configuration values of `app/config.py`
(`similarity_threshold = 0.7`, `top_k_results = 10`, `max_tokens = 4096`). -/
def cfgW : PipeSettings :=
  { similarity_threshold := 7/10, top_k_results := 10, max_tokens := 4096 }

/-- An environment whose embedder raises exactly on the question `"q2"`:
exercises per-question failure isolation. -/
def envFailSecond : PipelineEnv :=
  { initOp := Except.ok ()
    processDocumentFromUrl := fun _ => Except.ok ("", [])
    chunkDocumentOf := fun _ => Except.ok []
    generateEmbeddings := fun ts =>
      if ts = ["q2"] then Except.error "boom" else Except.ok [[1]]
    storeDocs := fun _ _ => Except.ok []
    similaritySearchOf := fun _ _ _ => Except.ok
      [{ id := 0, score := 9/10, content := "c0", metadata := [] }]
    processQuery := fun q cs _ => Except.ok
      { answer := "answer to " ++ q, confidence_score := 1, reasoning := ""
        chunks_used := cs.length, token_usage := 0 } }

/-- The spec §8 example retrieval: chunks scoring `[0.9, 0.6, 0.3]`. -/
def chunksW : List ScoredChunk :=
  [{ id := 0, score := 9/10, content := "c0", metadata := [] },
   { id := 1, score := 6/10, content := "c1", metadata := [] },
   { id := 2, score := 3/10, content := "c2", metadata := [] }]

/-- The answer the query-processor oracle of `envThreshold` returns. -/
def genResultW : GenResult :=
  { answer := "generated answer", confidence_score := 1, reasoning := ""
    chunks_used := 0, token_usage := 0 }

/-- An environment whose search returns the spec §8 example scores
`[0.9, 0.6, 0.3]`. -/
def envThreshold : PipelineEnv :=
  { initOp := Except.ok ()
    processDocumentFromUrl := fun _ => Except.ok ("", [])
    chunkDocumentOf := fun _ => Except.ok []
    generateEmbeddings := fun _ => Except.ok [[1]]
    storeDocs := fun _ _ => Except.ok []
    similaritySearchOf := fun _ _ _ => Except.ok chunksW
    processQuery := fun _ _ _ => Except.ok genResultW }

/-- An initialized store holding one vector per source `"a"` and `"b"`;
the `"b"` entry is closer to the query `[10]` used by the witnesses. -/
def stTwoSources : VStore :=
  { index_path := "idx", document_store_path := "docs", dimension := 1
    index := some [[0], [10]]
    document_store :=
      [(0, [("content", MVal.str "x"), ("source", MVal.str "a")]),
       (1, [("content", MVal.str "y"), ("source", MVal.str "b")])] }

/-- The search hit of `stTwoSources` from source `"a"`. -/
def hitA : SearchResult :=
  { id := 0, distance := 100, content := MVal.str "x"
    metadata := [("content", MVal.str "x"), ("source", MVal.str "a")] }

/-- The search hit of `stTwoSources` from source `"b"` (distance 0 to the
query `[10]`). -/
def hitB : SearchResult :=
  { id := 1, distance := 0, content := MVal.str "y"
    metadata := [("content", MVal.str "y"), ("source", MVal.str "b")] }

/-- The filter used by the C5 witness. -/
def filterA : Dict := [("source", MVal.str "a")]

/-- A single document from source `"a"`. -/
def docA : Doc :=
  { page_content := "hello", metadata := [("source", MVal.str "a")] }

/-- The store after initializing a fresh one-dimensional store and storing
`docA` with embedding `[0]`. -/
def stStored : VStore :=
  { index_path := "idx", document_store_path := "docs", dimension := 1
    index := some [[0]]
    document_store := [(0, entryMetadata 0 docA)] }

/-- `stStored` after `delete_by_source("a")`: the metadata is gone but the
vector slot remains. -/
def stDeleted : VStore :=
  { index_path := "idx", document_store_path := "docs", dimension := 1
    index := some [[0]]
    document_store := [] }

/-- The orphaned hit a filterless search still returns after deletion:
the vector slot answers with empty content and metadata. -/
def hitOrphan : SearchResult :=
  { id := 0, distance := 0, content := MVal.str "", metadata := [] }

/-- A single document from source `"b"`. -/
def docB : Doc :=
  { page_content := "world", metadata := [("source", MVal.str "b")] }

/-- The store after initializing a fresh one-dimensional store and storing
`docA` (source `"a"`, embedding `[0]`) and `docB` (source `"b"`,
embedding `[1]`). -/
def stAB : VStore :=
  { index_path := "idx", document_store_path := "docs", dimension := 1
    index := some [[0], [1]]
    document_store := [(0, entryMetadata 0 docA), (1, entryMetadata 1 docB)] }

/-- The filter used by the C8 witness. -/
def filterB : Dict := [("source", MVal.str "b")]

/-- The hit the C8 witness search returns: the surviving source-`"b"`
entry. -/
def hitKept : SearchResult :=
  { id := 1, distance := 1, content := MVal.str "world"
    metadata := entryMetadata 1 docB }

/-- The store after initializing a fresh one-dimensional store and storing
two copies of `docA` under the distinct embeddings `[0]` and `[1]`. -/
def stPair : VStore :=
  { index_path := "idx", document_store_path := "docs", dimension := 1
    index := some [[0], [1]]
    document_store := [(0, entryMetadata 0 docA), (1, entryMetadata 1 docA)] }

end HackRx

namespace HackRx

/-! ## Theorems -/

/-- C1.  For every document URL and every list of questions of length n,
`process_document_and_questions` returns exactly n answers, answer i
corresponding positionally to question i (the per-question loop appends one
answer per question; the ingestion `except` branch returns one error answer
per question), regardless of internal failures. -/
theorem C1_answers_length (env : PipelineEnv) (cfg : PipeSettings)
    (documentUrl : String) (questions : List String) :
    (processDocumentAndQuestions env cfg documentUrl questions).length =
      questions.length := by
  unfold processDocumentAndQuestions
  cases ingestionSteps env documentUrl <;>
    simp [processQuestions]

/-- C2.  If handling one question raises anywhere inside the per-question
`try` block, that question's answer becomes the error-message string and
every other question's answer is exactly what the per-question handler
produces for it on its own: the exception never escapes the loop and never
aborts the remaining questions. -/
theorem C2_per_question_isolation (env : PipelineEnv) (cfg : PipeSettings)
    (sf : Option String) (questions : List String) (i : Nat) (q : String)
    (e : String)
    (hq : questions.get? i = some q)
    (he : questionSteps env cfg sf q = Except.error e) :
    (processQuestions env cfg sf questions).get? i =
      some ("Error processing this question: " ++ e) ∧
    ∀ j, j ≠ i → (processQuestions env cfg sf questions).get? j =
      (questions.get? j).map (processOneQuestion env cfg sf) := by
  have hq' : questions[i]? = some q := by
    rw [← List.get?_eq_getElem?]; exact hq
  refine ⟨?_, ?_⟩
  · simp only [processQuestions, List.get?_eq_getElem?, List.getElem?_map, hq',
      Option.map_some]
    simp [processOneQuestion, he]
  · intro j _
    simp [processQuestions, List.get?_eq_getElem?, List.getElem?_map]

/-- Witness for C2: questions 1 and 3 of three still receive their normal
answers while question 2, whose embedding call raises, receives the error
string. -/
theorem C2_per_question_isolation_witness :
    (processQuestions envFailSecond cfgW (some "src") ["q1", "q2", "q3"]).get? 1 =
      some ("Error processing this question: " ++ "boom") ∧
    ∀ j, j ≠ 1 →
      (processQuestions envFailSecond cfgW (some "src") ["q1", "q2", "q3"]).get? j =
        (["q1", "q2", "q3"].get? j).map (processOneQuestion envFailSecond cfgW (some "src")) :=
  C2_per_question_isolation envFailSecond cfgW (some "src")
    ["q1", "q2", "q3"] 1 "q2" "boom" (by rfl) (by rfl)

/-- C3.  Retrieved chunks scoring strictly below the similarity threshold
are discarded; when nothing survives, the answer is exactly the fixed
not-found string and the query processor is never consulted (the answer is
the same whatever the query processor would do); otherwise the query
processor's returned answer text is taken verbatim. -/
theorem C3_threshold_filtering (env : PipelineEnv) (cfg : PipeSettings)
    (sf : Option String) (q : String) (embs : List (List ℚ)) (qe : List ℚ)
    (chunks : List ScoredChunk)
    (hemb : env.generateEmbeddings [q] = Except.ok embs)
    (hhead : embs.head? = some qe)
    (hsearch : env.similaritySearchOf qe cfg.top_k_results (mkFilterDict sf) =
      Except.ok chunks) :
    (∀ c, c ∈ chunks.filter (fun c => cfg.similarity_threshold ≤ c.score) ↔
      (c ∈ chunks ∧ cfg.similarity_threshold ≤ c.score)) ∧
    (chunks.filter (fun c => cfg.similarity_threshold ≤ c.score) = [] →
      ∀ g, processOneQuestion { env with processQuery := g } cfg sf q =
        "I couldn't find relevant information in the document to answer this question.") ∧
    (∀ res, chunks.filter (fun c => cfg.similarity_threshold ≤ c.score) ≠ [] →
      env.processQuery q
        (chunks.filter (fun c => cfg.similarity_threshold ≤ c.score))
        cfg.max_tokens = Except.ok res →
      processOneQuestion env cfg sf q = res.answer) := by
  refine ⟨?_, ?_, ?_⟩
  · intro c
    simp [List.mem_filter]
  · intro hempty g
    unfold processOneQuestion questionSteps
    rw [show ({ env with processQuery := g } : PipelineEnv).generateEmbeddings
          = env.generateEmbeddings from rfl,
        show ({ env with processQuery := g } : PipelineEnv).similaritySearchOf
          = env.similaritySearchOf from rfl,
        hemb]
    simp [hhead, hsearch, hempty]
  · intro res hne hgen
    unfold processOneQuestion questionSteps
    rw [hemb]
    simp [hhead, hsearch, List.isEmpty_eq_true, hne, hgen]

/-- Witness for C3 at the spec §8 example: with threshold 0.7 over scores
`[0.9, 0.6, 0.3]` only the 0.9 chunk survives, and the answer is the query
processor's text verbatim. -/
theorem C3_threshold_filtering_witness :
    (∀ c, c ∈ chunksW.filter (fun c => cfgW.similarity_threshold ≤ c.score) ↔
      (c ∈ chunksW ∧ cfgW.similarity_threshold ≤ c.score)) ∧
    (chunksW.filter (fun c => cfgW.similarity_threshold ≤ c.score) = [] →
      ∀ g, processOneQuestion { envThreshold with processQuery := g } cfgW
        (some "src") "q" =
        "I couldn't find relevant information in the document to answer this question.") ∧
    (∀ res, chunksW.filter (fun c => cfgW.similarity_threshold ≤ c.score) ≠ [] →
      envThreshold.processQuery "q"
        (chunksW.filter (fun c => cfgW.similarity_threshold ≤ c.score))
        cfgW.max_tokens = Except.ok res →
      processOneQuestion envThreshold cfgW (some "src") "q" = res.answer) :=
  C3_threshold_filtering envThreshold cfgW (some "src") "q" [[1]] [1] chunksW
    (by rfl) (by rfl) (by rfl)

/-! ### Vector store lemmas -/

/-- Squared L2 distance is nonnegative. -/
theorem sqDist_nonneg (u v : List ℚ) : 0 ≤ sqDist u v := by
  unfold sqDist
  apply List.sum_nonneg
  intro x hx
  simp only [List.mem_map] at hx
  obtain ⟨p, _, rfl⟩ := hx
  exact mul_self_nonneg _

/-- A vector is at squared distance 0 from itself. -/
theorem sqDist_self (v : List ℚ) : sqDist v v = 0 := by
  induction v with
  | nil => rfl
  | cons a t ih =>
    simp [sqDist, List.zip_cons_cons] at ih ⊢
    exact ih

/-- Distinct vectors of equal dimension are at strictly positive squared
distance. -/
theorem sqDist_pos_of_ne (u v : List ℚ) (hlen : u.length = v.length)
    (hne : u ≠ v) : 0 < sqDist u v := by
  induction u generalizing v with
  | nil =>
    cases v with
    | nil => exact absurd rfl hne
    | cons b t => simp at hlen
  | cons a s ih =>
    cases v with
    | nil => simp at hlen
    | cons b t =>
      have hstep : sqDist (a :: s) (b :: t) = (a - b) * (a - b) + sqDist s t := by
        simp [sqDist, List.zip_cons_cons]
      rw [hstep]
      by_cases hab : a = b
      · subst hab
        have hst : s ≠ t := by
          intro h; exact hne (by rw [h])
        have := ih t (by simpa using hlen) hst
        nlinarith [mul_self_nonneg (a - a)]
      · have h1 : 0 < (a - b) * (a - b) :=
          mul_self_pos.mpr (sub_ne_zero.mpr hab)
        nlinarith [sqDist_nonneg s t]

/-- `_matches_filter` succeeds exactly when the document metadata holds
every filter key with the filter's value. -/
theorem matchesFilter_eq_true_iff (d f : Dict) :
    matchesFilter d f = true ↔ ∀ kv ∈ f, d.lookup kv.1 = some kv.2 := by
  unfold matchesFilter
  rw [List.all_eq_true]
  constructor
  · intro h kv hkv
    have h2 := h kv hkv
    cases hl : d.lookup kv.1 with
    | none => rw [hl] at h2; simp at h2
    | some w => rw [hl] at h2; simp at h2; rw [h2]
  · intro h kv hkv
    rw [h kv hkv]
    simp

/-- In a dict with no duplicate keys, membership determines `lookup`. -/
theorem lookup_eq_some_of_mem_nodup (l : List (Nat × Dict)) (k : Nat)
    (v : Dict) (hnd : (l.map Prod.fst).Nodup) (hmem : (k, v) ∈ l) :
    l.lookup k = some v := by
  induction l with
  | nil => simp at hmem
  | cons hd tl ih =>
    obtain ⟨k1, v1⟩ := hd
    rcases List.mem_cons.mp hmem with heq | htl
    · rw [Prod.mk.injEq] at heq
      rw [heq.1, heq.2]
      simp [List.lookup]
    · have hk : k ≠ k1 := by
        intro h
        have hmm : k ∈ tl.map Prod.fst := List.mem_map.mpr ⟨(k, v), htl, rfl⟩
        rw [List.map_cons, List.nodup_cons] at hnd
        exact hnd.1 (h ▸ hmm)
      have hbeq : (k == k1) = false := beq_eq_false_iff_ne.mpr hk
      simp only [List.lookup, hbeq]
      exact ih (by rw [List.map_cons, List.nodup_cons] at hnd; exact hnd.2) htl

/-- If every binding of `k` in `l` fails the predicate, `k` is absent from
the filtered dict. -/
theorem lookup_filter_eq_none (l : List (Nat × Dict)) (k : Nat)
    (p : Nat × Dict → Bool)
    (h : ∀ v, (k, v) ∈ l → p (k, v) = false) :
    (l.filter p).lookup k = none := by
  induction l with
  | nil => rfl
  | cons hd tl ih =>
    obtain ⟨k1, v1⟩ := hd
    have htl : (tl.filter p).lookup k = none :=
      ih (fun v hv => h v (List.mem_cons_of_mem _ hv))
    rw [List.filter_cons]
    by_cases hk : k1 = k
    · have hp : p (k1, v1) = false := by
        rw [hk]
        exact h v1 (by rw [hk]; exact List.mem_cons_self _ _)
      rw [hp]
      simp only [Bool.false_eq_true, if_false]
      exact htl
    · split
      · have hbeq : (k == k1) = false :=
          beq_eq_false_iff_ne.mpr (fun hh => hk hh.symm)
        simp only [List.lookup, hbeq]
        exact htl
      · exact htl

instance : IsTotal (ℚ × Nat) faissLe := by
  constructor
  intro a b
  unfold faissLe
  rcases lt_trichotomy a.1 b.1 with h | h | h
  · exact Or.inl (Or.inl h)
  · rcases Nat.le_total a.2 b.2 with h2 | h2
    · exact Or.inl (Or.inr ⟨h, h2⟩)
    · exact Or.inr (Or.inr ⟨h.symm, h2⟩)
  · exact Or.inr (Or.inl h)

instance : IsTrans (ℚ × Nat) faissLe := by
  constructor
  intro a b c hab hbc
  unfold faissLe at hab hbc ⊢
  rcases hab with h1 | ⟨h1, h1n⟩ <;> rcases hbc with h2 | ⟨h2, h2n⟩
  · exact Or.inl (h1.trans h2)
  · exact Or.inl (h2 ▸ h1)
  · exact Or.inl (h1 ▸ h2)
  · exact Or.inr ⟨h1.trans h2, h1n.trans h2n⟩

/-- Every pair returned by the FAISS scan is the squared distance from the
query to one of the stored vectors. -/
theorem mem_faissSearch (vecs : List (List ℚ)) (q : List ℚ) (topK : Nat)
    (p : ℚ × Nat) (hp : p ∈ faissSearch vecs q topK) :
    ∃ v ∈ vecs, p.1 = sqDist q v := by
  unfold faissSearch at hp
  have hp2 := List.mem_of_mem_take hp
  have hp3 := (List.perm_insertionSort faissLe _).mem_iff.mp hp2
  simp only [List.mem_map] at hp3
  obtain ⟨⟨i, v⟩, hmem, rfl⟩ := hp3
  refine ⟨v, ?_, rfl⟩
  have h2 := List.mem_enum_iff_getElem?.mp hmem
  exact List.getElem?_mem h2

/-- Anatomy of a search hit: every result of `similarity_search` on an
initialized store comes from one scanned (distance, index) pair, carries
the metadata found for that index (empty when the lookup misses), and — for
a non-empty filter — passed `_matches_filter`. -/
theorem mem_similaritySearch (st : VStore) (vecs : List (List ℚ))
    (q : List ℚ) (topK : Nat) (fd : Option Dict)
    (results : List SearchResult) (r : SearchResult)
    (hidx : st.index = some vecs)
    (hok : similaritySearch st q topK fd = Except.ok results)
    (hr : r ∈ results) :
    ∃ p ∈ faissSearch vecs q topK,
      r = { id := p.2, distance := p.1,
            content := dictGetD ((st.document_store.lookup p.2).getD [])
              "content" (MVal.str ""),
            metadata := (st.document_store.lookup p.2).getD [] } ∧
      ∀ f, fd = some f → f.isEmpty = false →
        matchesFilter ((st.document_store.lookup p.2).getD []) f = true := by
  unfold similaritySearch at hok
  rw [hidx] at hok
  simp only [Except.ok.injEq] at hok
  rw [← hok] at hr
  rw [List.mem_filterMap] at hr
  obtain ⟨p, hp, hpr⟩ := hr
  refine ⟨p, hp, ?_⟩
  split at hpr
  · refine ⟨by injection hpr with h; exact h.symm, ?_⟩
    intro f hf hfe
    rename_i hkeep
    rw [hf] at hkeep
    simp only [hfe, Bool.false_eq_true, if_false] at hkeep
    exact hkeep
  · cases hpr

/-- C5.  For every search with a non-empty filter, every returned result's
metadata contains every key of the filter with exactly the filter's value
(so entries of other sources are excluded however well they score). -/
theorem C5_filter_restricts (st : VStore) (q : List ℚ) (topK : Nat)
    (f : Dict) (results : List SearchResult) (r : SearchResult)
    (hf : f ≠ [])
    (hok : similaritySearch st q topK (some f) = Except.ok results)
    (hr : r ∈ results) :
    matchesFilter r.metadata f = true ∧
    ∀ kv ∈ f, r.metadata.lookup kv.1 = some kv.2 := by
  cases hidx : st.index with
  | none =>
    unfold similaritySearch at hok
    rw [hidx] at hok
    exact absurd hok (by simp)
  | some vecs =>
    obtain ⟨p, _, hrec, hfil⟩ :=
      mem_similaritySearch st vecs q topK (some f) results r hidx hok hr
    have hie : f.isEmpty = false := by
      cases f with
      | nil => exact absurd rfl hf
      | cons a t => rfl
    have hm : matchesFilter r.metadata f = true := by
      rw [hrec]
      exact hfil f rfl hie
    exact ⟨hm, (matchesFilter_eq_true_iff _ _).mp hm⟩

/-- Evaluation of the two-source search with the source-`"a"` filter: only
the farther `"a"` entry is returned. -/
theorem searchTwoSources_filterA :
    similaritySearch stTwoSources [10] 10 (some filterA) =
      Except.ok [hitA] := by
  norm_num [similaritySearch, faissSearch, sqDist, stTwoSources, hitA,
    filterA, matchesFilter, dictGetD, List.insertionSort, List.orderedInsert,
    faissLe, List.enum, List.enumFrom, List.lookup, List.filterMap_cons,
    List.filterMap_nil, Option.getD]
  decide

/-- Evaluation of the two-source search without filter: both entries come
back, nearest first. -/
theorem searchTwoSources_nofilter :
    similaritySearch stTwoSources [10] 10 none =
      Except.ok [hitB, hitA] := by
  norm_num [similaritySearch, faissSearch, sqDist, stTwoSources, hitA, hitB,
    dictGetD, List.insertionSort, List.orderedInsert,
    faissLe, List.enum, List.enumFrom, List.lookup, List.filterMap_cons,
    List.filterMap_nil, Option.getD]
  decide

/-- Witness for C5: with entries from sources `"a"` and `"b"`, a filter on
source `"a"` returns only the `"a"` entry although the `"b"` entry is
closer to the query. -/
theorem C5_filter_restricts_witness :
    similaritySearch stTwoSources [10] 10 (some filterA) =
      Except.ok [hitA] ∧
    (matchesFilter hitA.metadata filterA = true ∧
    ∀ kv ∈ filterA, hitA.metadata.lookup kv.1 = some kv.2) :=
  ⟨searchTwoSources_filterA,
   C5_filter_restricts stTwoSources [10] 10 filterA [hitA] hitA
     (by decide) searchTwoSources_filterA (by decide)⟩

/-- C6.  Every search hit's score is `exp(-d)` for its squared L2 distance
`d ≥ 0`: it is 1 exactly when `d = 0`, lies in `(0, 1]`, and
`exp(-d)` is strictly decreasing in `d`. -/
theorem C6_score_semantics (st : VStore) (q : List ℚ) (topK : Nat)
    (fd : Option Dict) (results : List SearchResult) (r : SearchResult)
    (hok : similaritySearch st q topK fd = Except.ok results)
    (hr : r ∈ results) :
    0 ≤ r.distance ∧
    r.score = scoreOfDistance r.distance ∧
    (r.score = 1 ↔ r.distance = 0) ∧
    0 < r.score ∧ r.score ≤ 1 ∧
    ∀ d1 d2 : ℚ, d1 < d2 → scoreOfDistance d2 < scoreOfDistance d1 := by
  have hd0 : 0 ≤ r.distance := by
    cases hidx : st.index with
    | none =>
      unfold similaritySearch at hok
      rw [hidx] at hok
      exact absurd hok (by simp)
    | some vecs =>
      obtain ⟨p, hp, hrec, _⟩ :=
        mem_similaritySearch st vecs q topK fd results r hidx hok hr
      obtain ⟨v, _, hpd⟩ := mem_faissSearch vecs q topK p hp
      rw [hrec]
      simp only
      rw [hpd]
      exact sqDist_nonneg q v
  refine ⟨hd0, rfl, ?_, ?_, ?_, ?_⟩
  · unfold SearchResult.score scoreOfDistance
    rw [Real.exp_eq_one_iff]
    constructor
    · intro h
      exact_mod_cast neg_eq_zero.mp h
    · intro h
      rw [h]
      simp
  · exact Real.exp_pos _
  · unfold SearchResult.score scoreOfDistance
    rw [Real.exp_le_one_iff]
    simpa using hd0
  · intro d1 d2 h12
    unfold scoreOfDistance
    rw [Real.exp_lt_exp]
    simp only [neg_lt_neg_iff]
    exact_mod_cast h12

/-- Witness for C6 at a concrete search: the closest entry of
`stTwoSources` to the query `[10]` is at distance 0. -/
theorem C6_score_semantics_witness :
    0 ≤ hitB.distance ∧
    hitB.score = scoreOfDistance hitB.distance ∧
    (hitB.score = 1 ↔ hitB.distance = 0) ∧
    0 < hitB.score ∧ hitB.score ≤ 1 ∧
    ∀ d1 d2 : ℚ, d1 < d2 → scoreOfDistance d2 < scoreOfDistance d1 :=
  C6_score_semantics stTwoSources [10] 10 none [hitB, hitA] hitB
    searchTwoSources_nofilter (by decide)

/-- Folding Python dict assignments over fresh, pairwise-distinct keys just
appends the new bindings. -/
theorem foldl_dictInsertNat_append (l acc : List (Nat × Dict))
    (hdisj : ∀ p ∈ l, ∀ q2 ∈ acc, p.1 ≠ q2.1)
    (hnd : (l.map Prod.fst).Nodup) :
    l.foldl (fun d p => dictInsertNat d p.1 p.2) acc = acc ++ l := by
  induction l generalizing acc with
  | nil => simp
  | cons hd tl ih =>
    rw [List.foldl_cons]
    have hins : dictInsertNat acc hd.1 hd.2 = acc ++ [hd] := by
      have hcond : (acc.any fun p => decide (p.1 = hd.1)) = false := by
        rw [List.any_eq_false]
        intro q2 hq2
        simp only [decide_eq_true_eq]
        exact fun he => hdisj hd (List.mem_cons_self _ _) q2 hq2 he.symm
      unfold dictInsertNat
      rw [hcond]
      simp only [Bool.false_eq_true, if_false]
    rw [hins, ih (acc ++ [hd])]
    · rw [List.append_assoc]
      rfl
    · intro p hp q2 hq2
      rcases List.mem_append.mp hq2 with hq2a | hq2b
      · exact hdisj p (List.mem_cons_of_mem _ hp) q2 hq2a
      · have hq2hd : q2 = hd := by simpa using hq2b
        subst hq2hd
        rw [List.map_cons, List.nodup_cons] at hnd
        intro he
        exact hnd.1 (he ▸ List.mem_map.mpr ⟨p, hp, rfl⟩)
    · rw [List.map_cons, List.nodup_cons] at hnd
      exact hnd.2

/-- `store_documents` on a freshly initialized store: the index holds
exactly the new embeddings, ids are `0, 1, ...`, and the metadata table
binds id `i` to the metadata of document `i`. -/
theorem storeDocuments_vsInit (p1 p2 : String) (dim : Nat)
    (docs : List Doc) (embs : List (List ℚ)) :
    storeDocuments (vsInit (mkVStore p1 p2 dim)) docs embs =
      Except.ok
        ({ index_path := p1, document_store_path := p2, dimension := dim,
           index := some embs,
           document_store :=
             docs.enum.map (fun p => (p.1, entryMetadata p.1 p.2)) },
         List.range docs.length) := by
  unfold storeDocuments vsInit mkVStore
  simp only [List.nil_append, Nat.sub_self, Nat.zero_add, Except.ok.injEq,
    Prod.mk.injEq]
  constructor
  · congr 1
    rw [foldl_dictInsertNat_append]
    · rfl
    · intro p _ q2 hq2
      simp at hq2
    · simp only [List.map_map]
      have heq : (Prod.fst ∘ fun p : Nat × Doc =>
          ((p.1 : Nat), entryMetadata p.1 p.2)) = Prod.fst := by
        funext p
        rfl
      rw [heq]
      exact List.nodup_enum_map_fst docs
  · rw [List.map_map]
    have heq : ((fun p : Nat × Dict => p.1) ∘ fun p : Nat × Doc =>
        ((p.1 : Nat), entryMetadata p.1 p.2)) = Prod.fst := by
      funext p
      rfl
    rw [heq]
    simp [List.enum_map_fst]

/-- A strictly minimal element of the scan comes first in the sorted
order. -/
theorem insertionSort_head_of_strict_min (l : List (ℚ × Nat))
    (m : ℚ × Nat) (hm : m ∈ l)
    (hstrict : ∀ x ∈ l, x ≠ m → m.1 < x.1) :
    ∃ t, List.insertionSort faissLe l = m :: t := by
  have hperm := List.perm_insertionSort faissLe l
  have hsorted := List.sorted_insertionSort faissLe l
  have hml : m ∈ List.insertionSort faissLe l := hperm.mem_iff.mpr hm
  cases hsort_eq : List.insertionSort faissLe l with
  | nil =>
    rw [hsort_eq] at hml
    simp at hml
  | cons h t =>
    rw [hsort_eq] at hml hsorted
    have hh : h = m := by
      rcases List.mem_cons.mp hml with hcase | hcase
      · exact hcase.symm
      · by_contra hne
        have hhm : faissLe h m := (List.sorted_cons.mp hsorted).1 m hcase
        have hhl : h ∈ l := by
          apply hperm.subset
          rw [hsort_eq]
          exact List.mem_cons_self h t
        have hlt : m.1 < h.1 := hstrict h hhl hne
        rcases hhm with hc | ⟨hc, _⟩
        · exact absurd hc (lt_asymm hlt)
        · rw [hc] at hlt
          exact lt_irrefl _ hlt
    exact ⟨t, by rw [hh]⟩

/-- Searching with the `j`-th stored vector of a duplicate-free,
equal-dimension index puts `(distance 0, j)` first. -/
theorem faissSearch_self_head (vecs : List (List ℚ)) (j : Nat)
    (hj : j < vecs.length) (hnd : vecs.Nodup)
    (hdim : ∀ u ∈ vecs, ∀ v ∈ vecs, u.length = v.length)
    (topK : Nat) (hk : 1 ≤ topK) :
    ∃ t, faissSearch vecs (vecs.get ⟨j, hj⟩) topK = ((0 : ℚ), j) :: t := by
  have hqmem : vecs.get ⟨j, hj⟩ ∈ vecs := List.get_mem vecs j hj
  have hmem : ((0 : ℚ), j) ∈
      vecs.enum.map (fun p => (sqDist (vecs.get ⟨j, hj⟩) p.2, p.1)) := by
    apply List.mem_map.mpr
    refine ⟨(j, vecs.get ⟨j, hj⟩), ?_, ?_⟩
    · apply List.mem_enum_iff_getElem?.mpr
      simp [List.getElem?_eq_getElem hj]
    · simp [sqDist_self]
  have hstrict : ∀ x ∈
      vecs.enum.map (fun p => (sqDist (vecs.get ⟨j, hj⟩) p.2, p.1)),
      x ≠ ((0 : ℚ), j) → (0 : ℚ) < x.1 := by
    intro x hx hne
    obtain ⟨⟨i, v⟩, hiv, rfl⟩ := List.mem_map.mp hx
    have hgz := List.mem_enum_iff_getElem?.mp hiv
    simp only at hgz
    have hi : i < vecs.length := (List.getElem?_eq_some.mp hgz).1
    have hvi : vecs[i] = v := by
      have := (List.getElem?_eq_some.mp hgz).2
      exact this.symm ▸ rfl
    have hvmem : v ∈ vecs := by
      rw [← hvi]
      exact List.getElem_mem hi
    by_cases hij : i = j
    · exfalso
      apply hne
      subst hij
      have hvq : v = vecs.get ⟨i, hi⟩ := by
        rw [← hvi]
        simp
      rw [hvq]
      simp [sqDist_self]
    · have hvq : v ≠ vecs.get ⟨j, hj⟩ := by
        intro he
        apply hij
        have hgj : vecs[i] = vecs[j] := by
          rw [hvi, he]
          simp
        exact (List.Nodup.getElem_inj_iff hnd).mp hgj
      exact sqDist_pos_of_ne (vecs.get ⟨j, hj⟩) v
        (hdim _ hqmem v hvmem) (Ne.symm hvq)
  obtain ⟨t, ht⟩ := insertionSort_head_of_strict_min _ ((0 : ℚ), j)
    hmem hstrict
  refine ⟨t.take (topK - 1), ?_⟩
  unfold faissSearch
  rw [ht]
  cases topK with
  | zero => omega
  | succ n => simp

/-- Mapping through `some` is a plain map under `filterMap`. -/
theorem filterMap_some_eq_map {α β : Type} (g : α → β) (l : List α) :
    l.filterMap (fun a => some (g a)) = l.map g := by
  induction l with
  | nil => rfl
  | cons hd tl ih => simp [List.filterMap_cons, ih]

/-- C4.  After initializing a fresh local store and storing `k`
pairwise-distinct vectors of the index dimension, searching with the `j`-th
stored vector as the query (any `topK ≥ 1`, no filter) returns the entry
stored for document `j` — its assigned id — as the top-1 result, at
distance 0, with score exactly 1, the maximum over all returned results. -/
theorem C4_store_search_roundtrip (p1 p2 : String) (dim : Nat)
    (docs : List Doc) (embs : List (List ℚ))
    (hdim : ∀ v ∈ embs, v.length = dim)
    (hnd : embs.Nodup)
    (j : Nat) (hj : j < embs.length) (hjd : j < docs.length)
    (topK : Nat) (hk : 1 ≤ topK)
    (st1 : VStore) (ids : List Nat)
    (hstore : storeDocuments (vsInit (mkVStore p1 p2 dim)) docs embs =
      Except.ok (st1, ids)) :
    ∃ results r,
      similaritySearch st1 (embs.get ⟨j, hj⟩) topK none =
        Except.ok results ∧
      results.head? = some r ∧
      r.id = j ∧ ids.get? j = some j ∧
      r.distance = 0 ∧ r.score = 1 ∧
      r.metadata = entryMetadata j (docs.get ⟨j, hjd⟩) ∧
      ∀ x ∈ results, x.score ≤ r.score := by
  rw [storeDocuments_vsInit] at hstore
  simp only [Except.ok.injEq, Prod.mk.injEq] at hstore
  obtain ⟨hst1, hids⟩ := hstore
  subst hst1
  subst hids
  have hdim2 : ∀ u ∈ embs, ∀ v ∈ embs, u.length = v.length := by
    intro u hu v hv
    rw [hdim u hu, hdim v hv]
  obtain ⟨t, ht⟩ := faissSearch_self_head embs j hj hnd hdim2 topK hk
  have hndkeys :
      ((docs.enum.map (fun p => (p.1, entryMetadata p.1 p.2))).map
        Prod.fst).Nodup := by
    simp only [List.map_map]
    have heq : (Prod.fst ∘ fun p : Nat × Doc =>
        ((p.1 : Nat), entryMetadata p.1 p.2)) = Prod.fst := rfl
    rw [heq]
    exact List.nodup_enum_map_fst docs
  have hlook :
      (docs.enum.map (fun p => (p.1, entryMetadata p.1 p.2))).lookup j =
        some (entryMetadata j (docs.get ⟨j, hjd⟩)) := by
    apply lookup_eq_some_of_mem_nodup _ _ _ hndkeys
    apply List.mem_map.mpr
    refine ⟨(j, docs.get ⟨j, hjd⟩), ?_, rfl⟩
    apply List.mem_enum_iff_getElem?.mpr
    simp [List.getElem?_eq_getElem hjd]
  have hscore1 : scoreOfDistance 0 = 1 := by
    unfold scoreOfDistance
    simp
  refine ⟨_,
    { id := j, distance := (0 : ℚ),
      content := dictGetD (entryMetadata j (docs.get ⟨j, hjd⟩)) "content"
        (MVal.str ""),
      metadata := entryMetadata j (docs.get ⟨j, hjd⟩) },
    rfl, ?_, rfl, ?_, rfl, ?_, rfl, ?_⟩
  · rw [ht]
    simp only [List.filterMap_cons, List.head?_cons, Option.some.injEq]
    simp [hlook]
  · simp [List.get?_eq_getElem?, List.getElem?_range hjd]
  · show SearchResult.score _ = 1
    unfold SearchResult.score
    exact hscore1
  · intro x hx
    obtain ⟨p, hp, hrec, _⟩ := mem_similaritySearch
      { index_path := p1, document_store_path := p2, dimension := dim,
        index := some embs,
        document_store :=
          docs.enum.map (fun p => (p.1, entryMetadata p.1 p.2)) }
      embs (embs.get ⟨j, hj⟩) topK none _ x rfl rfl hx
    obtain ⟨v, _, hpd⟩ := mem_faissSearch embs (embs.get ⟨j, hj⟩) topK p hp
    have hnn : 0 ≤ x.distance := by
      rw [hrec]
      simp only
      rw [hpd]
      exact sqDist_nonneg _ _
    show SearchResult.score x ≤ SearchResult.score _
    unfold SearchResult.score
    show scoreOfDistance x.distance ≤ scoreOfDistance 0
    rw [hscore1]
    unfold scoreOfDistance
    rw [Real.exp_le_one_iff]
    simpa using hnn

/-- Witness for C4: the fresh store holding embeddings `[0]` and `[1]`,
queried with the stored vector `[0]`, returns entry 0 first with score 1. -/
theorem C4_store_search_roundtrip_witness :
    ∃ results r,
      similaritySearch stPair [0] 1 none = Except.ok results ∧
      results.head? = some r ∧
      r.id = 0 ∧ ([0, 1] : List Nat).get? 0 = some 0 ∧
      r.distance = 0 ∧ r.score = 1 ∧
      r.metadata = entryMetadata 0 docA ∧
      ∀ x ∈ results, x.score ≤ r.score :=
  C4_store_search_roundtrip "idx" "docs" 1 [docA, docA] [[0], [1]]
    (by decide) (by decide) 0 (by decide) (by decide) 1 (by decide)
    stPair [0, 1] (by decide)

/-- C8 counterexample.  Storing one document from source `"a"`, deleting
source `"a"`, and then searching WITHOUT a filter still returns the deleted
entry's slot (empty content and metadata): its metadata lookup fails, but a
filterless search keeps it, so the entry is not unreachable for every
query. -/
theorem C8_counterexample :
    storeDocuments (vsInit (mkVStore "idx" "docs" 1)) [docA] [[0]] =
      Except.ok (stStored, [0]) ∧
    deleteBySource stStored "a" = stDeleted ∧
    stDeleted.document_store.lookup 0 = none ∧
    similaritySearch stDeleted [0] 1 none = Except.ok [hitOrphan] := by
  refine ⟨by decide, by decide, rfl, ?_⟩
  norm_num [similaritySearch, faissSearch, sqDist, stDeleted, hitOrphan,
    dictGetD, List.insertionSort, List.orderedInsert, faissLe, List.enum,
    List.enumFrom, List.lookup, List.filterMap_cons, List.filterMap_nil,
    Option.getD]

/-- C8 (amended).  After `delete_by_source`, a deleted entry is never
returned by any search that supplies a non-empty metadata filter: its
metadata lookup yields the empty dict, which fails `_matches_filter`.
A filterless search can still return the orphaned slot. -/
theorem C8_deleted_unreachable_with_filter (st : VStore) (s : String)
    (id : Nat) (md : Dict)
    (hnd : (st.document_store.map Prod.fst).Nodup)
    (hmem : (id, md) ∈ st.document_store)
    (hsrc : md.lookup "source" = some (MVal.str s))
    (q : List ℚ) (topK : Nat) (f : Dict) (hf : f ≠ [])
    (results : List SearchResult)
    (hok : similaritySearch (deleteBySource st s) q topK (some f) =
      Except.ok results) :
    results.all (fun r => decide (r.id ≠ id)) = true := by
  rw [List.all_eq_true]
  intro r hr
  simp only [decide_eq_true_eq]
  intro hrid
  have hln : ((deleteBySource st s).document_store.lookup id) = none := by
    unfold deleteBySource
    apply lookup_filter_eq_none
    intro v hv
    have h1 := lookup_eq_some_of_mem_nodup st.document_store id v hnd hv
    have h2 := lookup_eq_some_of_mem_nodup st.document_store id md hnd hmem
    rw [h1] at h2
    injection h2 with h3
    rw [h3, hsrc]
    simp
  cases hidx : (deleteBySource st s).index with
  | none =>
    unfold similaritySearch at hok
    rw [hidx] at hok
    exact absurd hok (by simp)
  | some vecs =>
    obtain ⟨p, _, hrec, hfil⟩ :=
      mem_similaritySearch (deleteBySource st s) vecs q topK (some f)
        results r hidx hok hr
    have hie : f.isEmpty = false := by
      cases f with
      | nil => exact absurd rfl hf
      | cons kv rest => rfl
    have hm := hfil f rfl hie
    have hpid : p.2 = id := by
      rw [hrec] at hrid
      exact hrid
    rw [hpid, hln] at hm
    cases f with
    | nil => exact hf rfl
    | cons kv rest => simp [matchesFilter, List.lookup] at hm

/-- Evaluation used by the C8 witness: after deleting source `"a"` from
`stAB`, a search with the source-`"b"` filter returns only the surviving
entry, and skips the deleted slot even though it is closer. -/
theorem searchABdeleted :
    similaritySearch (deleteBySource stAB "a") [0] 2 (some filterB) =
      Except.ok [hitKept] := by
  have hdel : deleteBySource stAB "a" =
      { index_path := "idx", document_store_path := "docs", dimension := 1
        index := some [[0], [1]]
        document_store := [(1, entryMetadata 1 docB)] } := by decide
  rw [hdel]
  norm_num [similaritySearch, faissSearch, sqDist, filterB, hitKept, docB,
    entryMetadata, matchesFilter, dictGetD, List.insertionSort,
    List.orderedInsert, faissLe, List.enum, List.enumFrom, List.lookup,
    List.filterMap_cons, List.filterMap_nil, Option.getD]
  decide

/-- Witness for the amended C8: a filtered search after deleting source
`"a"` never returns the deleted id 0. -/
theorem C8_deleted_unreachable_with_filter_witness :
    ([hitKept] : List SearchResult).all (fun r => decide (r.id ≠ 0)) = true :=
  C8_deleted_unreachable_with_filter stAB "a" 0 (entryMetadata 0 docA)
    (by decide) (by decide) (by decide) [0] 2 filterB (by decide) [hitKept]
    searchABdeleted

/-- C7.  `delete_by_source` drops exactly the metadata entries whose
`source` equals the argument: the stored vectors and the vector count are
untouched, and every other metadata entry survives unchanged. -/
theorem C7_delete_frame (st : VStore) (s : String) :
    (deleteBySource st s).index = st.index ∧
    (getIndexStats (deleteBySource st s)).total_vectors =
      (getIndexStats st).total_vectors ∧
    ∀ p : Nat × Dict, p ∈ (deleteBySource st s).document_store ↔
      (p ∈ st.document_store ∧ p.2.lookup "source" ≠ some (MVal.str s)) := by
  refine ⟨rfl, rfl, ?_⟩
  intro p
  simp [deleteBySource, List.mem_filter]

/-- C9 counterexample.  On a store whose `initialize` has never been
called, `get_index_stats` and `delete_by_source` succeed normally (no
`NotInitializedError` is raised — none exists in the code). -/
theorem C9_counterexample :
    getIndexStats (mkVStore "idx.faiss" "docs.json" 3) =
      { dimension := 3, total_vectors := 0, total_documents := 0,
        index_path := "idx.faiss", document_store_path := "docs.json",
        sources := [] } ∧
    deleteBySource (mkVStore "idx.faiss" "docs.json" 3) "u" =
      mkVStore "idx.faiss" "docs.json" 3 :=
  ⟨rfl, rfl⟩

/-- C9 (amended).  Before `initialize`, `store_documents` and
`similarity_search` fail — with an `AttributeError` on the `None` index,
not a `NotInitializedError` — while `delete_by_source` and
`get_index_stats` succeed normally (nothing to delete; zero vectors
reported). -/
theorem C9_uninitialized_behavior (p1 p2 : String) (dim : Nat)
    (docs : List Doc) (embs : List (List ℚ)) (q : List ℚ) (topK : Nat)
    (fd : Option Dict) (s : String) :
    storeDocuments (mkVStore p1 p2 dim) docs embs =
      Except.error "AttributeError: NoneType object has no attribute add" ∧
    similaritySearch (mkVStore p1 p2 dim) q topK fd =
      Except.error "AttributeError: NoneType object has no attribute search" ∧
    deleteBySource (mkVStore p1 p2 dim) s = mkVStore p1 p2 dim ∧
    getIndexStats (mkVStore p1 p2 dim) =
      { dimension := dim, total_vectors := 0, total_documents := 0,
        index_path := p1, document_store_path := p2, sources := [] } :=
  ⟨rfl, rfl, rfl, rfl⟩

/-- The character-level splitter returns no pieces exactly on empty
input. -/
theorem splitPieces_eq_nil_iff (size step : Nat) (l : List Char) :
    splitPieces size step l = [] ↔ l = [] := by
  constructor
  · intro h
    by_contra hne
    rw [splitPieces] at h
    simp only [hne, if_false] at h
    split at h <;> simp at h
  · intro h
    subst h
    rw [splitPieces]
    simp

/-- C10.  `chunk_document` is a pure function of its input, and it returns
an empty list of segments exactly when the document content is the empty
string; every non-empty content yields at least one segment. -/
theorem C10_chunk_document_empty_iff (chunk_size chunk_overlap : Nat)
    (tokenizer : Option (String → Nat)) (document_data : DocumentData) :
    chunkDocument chunk_size chunk_overlap tokenizer document_data = [] ↔
      document_data.content = "" := by
  unfold chunkDocument splitText
  constructor
  · intro h
    simp only [List.map_eq_nil_iff] at h
    have hl : document_data.content.toList = [] := by
      have := (splitPieces_eq_nil_iff chunk_size
        (chunk_size - chunk_overlap) document_data.content.toList).mp
      apply this
      by_contra hne
      rcases List.exists_cons_of_ne_nil hne with ⟨p, rest, hp⟩
      rw [hp] at h
      simp at h
    have : document_data.content.data = [] := hl
    cases hcontent : document_data.content with
    | mk data => rw [hcontent] at this; simp at this; rw [this]
  · intro h
    rw [h]
    simp [splitPieces_eq_nil_iff]

end HackRx
